import Mathlib

/-!
Verification of the orchestration core of the roop repository
(`src/roop/core.py`).

The control flow of `core.py` is embedded shallowly as pure Lean
functions that produce a trace of the observable actions the Python code
performs (status messages, filesystem operations, calls into frame
processor modules and external tools).  External collaborators
(`onnxruntime.get_available_providers`, `roop.utilities.*`, the frame
processor modules) are parameters of the embedding: an `Env` record
supplies their outcomes, and each call the core makes is recorded as an
event in the trace, in the order the Python code makes the calls.
-/

namespace Roop

/-! ## String helpers modelling the Python builtins used by `core.py`

`encode_execution_providers` uses `str.replace(old, '')`, `str.lower`
and the substring test `needle in haystack`.  These are modelled on
`List Char` with structural (fuel-based) recursion so that they are
executable by the kernel. -/

/-- Python `s.replace(pat, '')`: delete every non-overlapping occurrence
of `pat` in `s`, scanning left to right.  `fuel` bounds the recursion;
`fuel = s.length` is always enough because every step consumes at least
one character of `s` when `pat` is non-empty. -/
def replaceDeleteAux (pat : List Char) : Nat → List Char → List Char
  | _, [] => []
  | 0, s => s
  | Nat.succ n, c :: rest =>
    if pat.isPrefixOf (c :: rest) then replaceDeleteAux pat n ((c :: rest).drop pat.length)
    else c :: replaceDeleteAux pat n rest

/-- Python `s.replace(pat, '')` on `String`. -/
def replaceDelete (s pat : String) : String :=
  String.mk (replaceDeleteAux pat.data s.data.length s.data)

/-- Python `s.lower()` (the provider names are ASCII). -/
def pyLower (s : String) : String :=
  String.mk (s.data.map Char.toLower)

/-- Python substring test `needle in haystack` on character lists:
true iff `needle` occurs contiguously in `haystack`. -/
def containsSub (needle : List Char) : List Char → Bool
  | [] => needle.isEmpty
  | c :: rest => needle.isPrefixOf (c :: rest) || containsSub needle rest

/-- Python substring test `needle in haystack` on `String`. -/
def inStr (needle haystack : String) : Bool :=
  containsSub needle.data haystack.data

/-! ## Execution provider resolution (`core.py` lines 77-87) -/

/-- `core.py` line 78: one provider name is encoded by stripping the
`ExecutionProvider` suffix-occurrence and lowercasing. -/
def encode_execution_provider (execution_provider : String) : String :=
  pyLower (replaceDelete execution_provider "ExecutionProvider")

/-- `core.py` lines 77-78, `encode_execution_providers`. -/
def encode_execution_providers (execution_providers : List String) : List String :=
  execution_providers.map encode_execution_provider

/-- `core.py` lines 81-83, `decode_execution_providers`.  The runtime
call `onnxruntime.get_available_providers()` is the external parameter
`available`; `execution_providers` is the user-requested list. -/
def decode_execution_providers (execution_providers available : List String) : List String :=
  ((available.zip (encode_execution_providers available)).filter
    (fun pe => execution_providers.any (fun execution_provider => inStr execution_provider pe.2))).map
    Prod.fst

/-! ## Argument parsing relevant to the claims (`core.py` lines 35, 60)

`argparse`'s `store_true` action sets the destination to `True` when the
flag is present and to the declared default when it is absent. -/

/-- `argparse` `action='store_true'` semantics. -/
def store_true (defaultValue : Bool) (flagPresent : Bool) : Bool :=
  if flagPresent then true else defaultValue

/-- `core.py` line 35: `--keep-fps` is declared with `action='store_true',
default=True`; line 60 copies the parsed value to `roop.globals.keep_fps`. -/
def parse_keep_fps (argv : List String) : Bool :=
  store_true true (argv.contains "--keep-fps")

/-! ## The trace model of `core.py`'s orchestration -/

/-- Outcome booleans of one frame processor module, as obtained from
`get_frame_processors_modules` for one requested name.  `NAME` is the
module's display name used in status messages. -/
structure FrameProcessorModule where
  NAME : String
  pre_check_result : Bool
  pre_start_result : Bool
deriving DecidableEq, Repr

/-- The fields of `roop.globals` that `core.py`'s control flow reads. -/
structure Globals where
  source_path : String
  target_path : String
  output_path : String
  headless : Bool
  keep_fps : Bool
  skip_audio : Bool
deriving DecidableEq, Repr

/-- Outcomes of the external collaborators `core.py` calls into:
`sys.version_info`, `shutil.which('ffmpeg')`, the frame processor
modules, and the `roop.utilities` helpers. -/
structure Env where
  python_version_ok : Bool
  ffmpeg_present : Bool
  modules : List FrameProcessorModule
  has_image_extension : String → Bool
  is_image : String → Bool
  is_video : String → Bool
  detect_fps : String → Nat
  temp_frame_paths : String → List String
  create_video_ok : String → Option Nat → Bool

/-- One observable action of the orchestration core, in the order the
Python code performs it.  `fps = none` on `extractFrames`/`createVideo`
records the call made without an explicit fps argument (the callee's
fixed 30-FPS fallback). -/
inductive Event where
  | parseArgs
  | status (scope message : String)
  | preCheckCall (name : String)
  | preStartCall (name : String)
  | limitResources
  | copyFile (src dst : String)
  | createTemp (target : String)
  | extractFrames (target : String) (fps : Option Nat)
  | processImage (name source target output : String)
  | processVideo (name source : String) (frames : List String)
  | postProcess (name : String)
  | createVideo (target : String) (fps : Option Nat)
  | moveTemp (target output : String)
  | restoreAudio (target output : String)
  | cleanTemp (target : String)
  | uiInit
  | exitProcess
deriving DecidableEq, Repr

/-- `core.py` lines 136-138: the `pre_start` loop at the head of
`start`.  Returns the events of the calls made and whether every module
passed (the Python loop returns at the first failing module). -/
def preStartPhase : List FrameProcessorModule → List Event × Bool
  | [] => ([], true)
  | m :: ms =>
    if m.pre_start_result then
      (Event.preStartCall m.NAME :: (preStartPhase ms).1, (preStartPhase ms).2)
    else ([Event.preStartCall m.NAME], false)

/-- `core.py` lines 218-220: the per-module `pre_check` loop in `run`. -/
def preCheckPhase : List FrameProcessorModule → List Event × Bool
  | [] => ([], true)
  | m :: ms =>
    if m.pre_check_result then
      (Event.preCheckCall m.NAME :: (preCheckPhase ms).1, (preCheckPhase ms).2)
    else ([Event.preCheckCall m.NAME], false)

/-- `core.py` lines 121-128, `pre_check`: python version and ffmpeg
availability, each failure printing a status and returning `False`. -/
def core_pre_check (env : Env) : List Event × Bool :=
  if !env.python_version_ok then
    ([Event.status "ROOP.CORE" "Python version is not supported - please upgrade to 3.10 or higher."],
      false)
  else if !env.ffmpeg_present then
    ([Event.status "ROOP.CORE" "ffmpeg is not installed."], false)
  else ([], true)

/-- `core.py` lines 145-148: the image-path processing loop: per module a
`Progressing...` status, `process_image(source, output, output)` and
`post_process()`. -/
def processImagePhase (g : Globals) : List FrameProcessorModule → List Event
  | [] => []
  | m :: ms =>
    Event.status m.NAME "Progressing..." ::
    Event.processImage m.NAME g.source_path g.output_path g.output_path ::
    Event.postProcess m.NAME ::
    processImagePhase g ms

/-- `core.py` lines 171-174: the video-path processing loop: per module a
`Progressing...` status, `process_video(source, temp_frame_paths)` and
`post_process()`. -/
def processVideoPhase (g : Globals) (frames : List String) :
    List FrameProcessorModule → List Event
  | [] => []
  | m :: ms =>
    Event.status m.NAME "Progressing..." ::
    Event.processVideo m.NAME g.source_path frames ::
    Event.postProcess m.NAME ::
    processVideoPhase g frames ms

/-- `core.py` lines 161-167: frame extraction, branching on `keep_fps`
between the detected source fps and the callee's 30-FPS default. -/
def extractSegment (g : Globals) (env : Env) : List Event :=
  if g.keep_fps then
    let fps := env.detect_fps g.target_path
    [Event.status "ROOP.CORE" ("Extracting frames with " ++ toString fps ++ " FPS..."),
     Event.extractFrames g.target_path (some fps)]
  else
    [Event.status "ROOP.CORE" "Extracting frames with 30 FPS...",
     Event.extractFrames g.target_path none]

/-- `core.py` lines 179-187: video reassembly, branching on `keep_fps`;
a failing `create_video` adds a `Creating video failed...` status and
the run continues. -/
def createVideoSegment (g : Globals) (env : Env) : List Event :=
  if g.keep_fps then
    let fps := env.detect_fps g.target_path
    Event.status "ROOP.CORE" ("Creating video with " ++ toString fps ++ " FPS...") ::
    Event.createVideo g.target_path (some fps) ::
    (if env.create_video_ok g.target_path (some fps) then []
     else [Event.status "ROOP.CORE" "Creating video failed..."])
  else
    Event.status "ROOP.CORE" "Creating video with 30 FPS..." ::
    Event.createVideo g.target_path none ::
    (if env.create_video_ok g.target_path none then []
     else [Event.status "ROOP.CORE" "Creating video failed..."])

/-- `core.py` lines 189-197: audio handling, branching on `skip_audio`
(and on `keep_fps` for the warning message only). -/
def audioSegment (g : Globals) : List Event :=
  if g.skip_audio then
    [Event.moveTemp g.target_path g.output_path,
     Event.status "ROOP.CORE" "Skipping audio..."]
  else
    (if g.keep_fps then [Event.status "ROOP.CORE" "Restoring audio..."]
     else [Event.status "ROOP.CORE" "Restoring audio might cause issues as fps are not kept..."]) ++
    [Event.restoreAudio g.target_path g.output_path]

/-- `core.py` lines 150-153: image validation status.  Note that the
source applies `is_image` to `roop.globals.target_path`. -/
def imageValidationEvent (g : Globals) (env : Env) : Event :=
  if env.is_image g.target_path then Event.status "ROOP.CORE" "Processing to image succeed!"
  else Event.status "ROOP.CORE" "Processing to image failed!"

/-- `core.py` lines 202-205: video validation status.  Note that the
source applies `is_video` to `roop.globals.target_path`. -/
def videoValidationEvent (g : Globals) (env : Env) : Event :=
  if env.is_video g.target_path then Event.status "ROOP.CORE" "Processing to video succeed!"
  else Event.status "ROOP.CORE" "Processing to video failed!"

/-- `core.py` lines 135-205, `start`: the pre_start loop, then the image
path (copy, process loop, validation) or the video path (create temp,
extract, process loop or early return on no frames, reassembly, audio,
clean temp, validation). -/
def start (g : Globals) (env : Env) : List Event :=
  (preStartPhase env.modules).1 ++
  if !(preStartPhase env.modules).2 then []
  else if env.has_image_extension g.target_path then
    Event.copyFile g.target_path g.output_path ::
    (processImagePhase g env.modules ++ [imageValidationEvent g env])
  else
    Event.status "ROOP.CORE" "Creating temporary resources..." ::
    Event.createTemp g.target_path ::
    (extractSegment g env ++
     if (env.temp_frame_paths g.target_path).isEmpty then
       [Event.status "ROOP.CORE" "Temporary frames not found..."]
     else
       processVideoPhase g (env.temp_frame_paths g.target_path) env.modules ++
       createVideoSegment g env ++
       audioSegment g ++
       [Event.status "ROOP.CORE" "Cleaning temporary resources...",
        Event.cleanTemp g.target_path,
        videoValidationEvent g env])

/-- `core.py` lines 208-211, `destroy`: the SIGINT handler (registered
at line 28) cleans the temp workspace whenever a target path is set,
then exits the process. -/
def destroy (target_path : Option String) : List Event :=
  (match target_path with
   | some t => [Event.cleanTemp t]
   | none => []) ++ [Event.exitProcess]

/-- `core.py` lines 214-227, `run`: parse args, core `pre_check`, the
per-module `pre_check` loop, `limit_resources`, then `start` (headless)
or the UI. -/
def run (g : Globals) (env : Env) : List Event :=
  Event.parseArgs ::
  ((core_pre_check env).1 ++
   if !(core_pre_check env).2 then []
   else
     (preCheckPhase env.modules).1 ++
     if !(preCheckPhase env.modules).2 then []
     else
       Event.limitResources ::
       (if g.headless then start g env else [Event.uiInit]))

/-- Classifies which events touch the filesystem (workspace, frames or
output artifacts). -/
def isFsEffect : Event → Bool
  | Event.copyFile _ _ => true
  | Event.createTemp _ => true
  | Event.extractFrames _ _ => true
  | Event.processImage _ _ _ _ => true
  | Event.processVideo _ _ _ => true
  | Event.createVideo _ _ => true
  | Event.moveTemp _ _ => true
  | Event.restoreAudio _ _ => true
  | Event.cleanTemp _ => true
  | _ => false

/-! ## Concrete sample inputs used by counterexamples and witnesses -/

/-- A frame processor module whose checks all pass. -/
def moduleA : FrameProcessorModule := ⟨"face_swapper", true, true⟩

/-- A second all-passing frame processor module. -/
def moduleB : FrameProcessorModule := ⟨"face_enhancer", true, true⟩

/-- A module whose `pre_check` fails. -/
def modulePreCheckFail : FrameProcessorModule := ⟨"face_swapper", false, true⟩

/-- A module whose `pre_start` fails. -/
def modulePreStartFail : FrameProcessorModule := ⟨"face_swapper", true, false⟩

/-- Globals of a headless image job: target `photo.jpg`, output `out.png`. -/
def gImage : Globals :=
  { source_path := "face.png", target_path := "photo.jpg", output_path := "out.png",
    headless := true, keep_fps := true, skip_audio := false }

/-- Globals of a headless video job: target `clip.mp4`, output `out.mp4`. -/
def gVideo : Globals :=
  { source_path := "face.png", target_path := "clip.mp4", output_path := "out.mp4",
    headless := true, keep_fps := true, skip_audio := false }

/-- Globals of a non-headless (UI) invocation. -/
def gUi : Globals :=
  { source_path := "face.png", target_path := "clip.mp4", output_path := "out.mp4",
    headless := false, keep_fps := true, skip_audio := false }

/-- Environment of an image job: the target has an image extension and
`is_image` holds of the target path but not of the output path. -/
def envImage : Env :=
  { python_version_ok := true, ffmpeg_present := true, modules := [moduleA, moduleB],
    has_image_extension := fun p => p == "photo.jpg",
    is_image := fun p => p == "photo.jpg",
    is_video := fun _ => false,
    detect_fps := fun _ => 24,
    temp_frame_paths := fun _ => [],
    create_video_ok := fun _ _ => true }

/-- Environment of a video job whose frame extraction yields nothing. -/
def envVideoNoFrames : Env :=
  { python_version_ok := true, ffmpeg_present := true, modules := [moduleA],
    has_image_extension := fun _ => false,
    is_image := fun _ => false,
    is_video := fun p => p == "clip.mp4",
    detect_fps := fun _ => 24,
    temp_frame_paths := fun _ => [],
    create_video_ok := fun _ _ => true }

/-- Environment of a video job with two extracted frames whose
reassembly (`create_video`) fails. -/
def envVideoCreateFail : Env :=
  { python_version_ok := true, ffmpeg_present := true, modules := [moduleA, moduleB],
    has_image_extension := fun _ => false,
    is_image := fun _ => false,
    is_video := fun p => p == "clip.mp4",
    detect_fps := fun _ => 24,
    temp_frame_paths := fun _ => ["frame-0001.jpg", "frame-0002.jpg"],
    create_video_ok := fun _ _ => false }

/-- Environment with a single all-passing module, used to inspect the
order of `pre_check` and `limit_resources` in `run`. -/
def envOneModule : Env :=
  { python_version_ok := true, ffmpeg_present := true, modules := [moduleA],
    has_image_extension := fun _ => false,
    is_image := fun _ => false,
    is_video := fun p => p == "clip.mp4",
    detect_fps := fun _ => 24,
    temp_frame_paths := fun _ => ["frame-0001.jpg"],
    create_video_ok := fun _ _ => true }

/-- Environment whose only module fails `pre_check`. -/
def envPreCheckFail : Env :=
  { python_version_ok := true, ffmpeg_present := true, modules := [modulePreCheckFail],
    has_image_extension := fun _ => false,
    is_image := fun _ => false,
    is_video := fun p => p == "clip.mp4",
    detect_fps := fun _ => 24,
    temp_frame_paths := fun _ => ["frame-0001.jpg"],
    create_video_ok := fun _ _ => true }

/-- Environment whose only module fails `pre_start`. -/
def envPreStartFail : Env :=
  { python_version_ok := true, ffmpeg_present := true, modules := [modulePreStartFail],
    has_image_extension := fun _ => false,
    is_image := fun _ => false,
    is_video := fun p => p == "clip.mp4",
    detect_fps := fun _ => 24,
    temp_frame_paths := fun _ => ["frame-0001.jpg"],
    create_video_ok := fun _ _ => true }

/-! ## Helper lemmas about the phases -/

theorem preStartPhase_snd (ms : List FrameProcessorModule) :
    (preStartPhase ms).2 = ms.all (fun m => m.pre_start_result) := by
  induction ms with
  | nil => rfl
  | cons m ms ih =>
    cases hp : m.pre_start_result <;> simp [preStartPhase, hp, ih]

theorem preCheckPhase_snd (ms : List FrameProcessorModule) :
    (preCheckPhase ms).2 = ms.all (fun m => m.pre_check_result) := by
  induction ms with
  | nil => rfl
  | cons m ms ih =>
    cases hp : m.pre_check_result <;> simp [preCheckPhase, hp, ih]

theorem mem_preStartPhase_fst {ms : List FrameProcessorModule} {e : Event}
    (h : e ∈ (preStartPhase ms).1) : ∃ m ∈ ms, e = Event.preStartCall m.NAME := by
  induction ms with
  | nil => simp [preStartPhase] at h
  | cons m ms ih =>
    cases hp : m.pre_start_result <;> simp [preStartPhase, hp] at h
    · exact ⟨m, List.mem_cons_self m ms, h⟩
    · rcases h with h | h
      · exact ⟨m, List.mem_cons_self m ms, h⟩
      · rcases ih h with ⟨m', hm', he⟩
        exact ⟨m', List.mem_cons_of_mem m hm', he⟩

theorem mem_preCheckPhase_fst {ms : List FrameProcessorModule} {e : Event}
    (h : e ∈ (preCheckPhase ms).1) : ∃ m ∈ ms, e = Event.preCheckCall m.NAME := by
  induction ms with
  | nil => simp [preCheckPhase] at h
  | cons m ms ih =>
    cases hp : m.pre_check_result <;> simp [preCheckPhase, hp] at h
    · exact ⟨m, List.mem_cons_self m ms, h⟩
    · rcases h with h | h
      · exact ⟨m, List.mem_cons_self m ms, h⟩
      · rcases ih h with ⟨m', hm', he⟩
        exact ⟨m', List.mem_cons_of_mem m hm', he⟩

theorem processImagePhase_append (g : Globals) (ms₁ ms₂ : List FrameProcessorModule) :
    processImagePhase g (ms₁ ++ ms₂) = processImagePhase g ms₁ ++ processImagePhase g ms₂ := by
  induction ms₁ with
  | nil => rfl
  | cons m ms ih => simp [processImagePhase, ih]

theorem processVideoPhase_append (g : Globals) (frames : List String)
    (ms₁ ms₂ : List FrameProcessorModule) :
    processVideoPhase g frames (ms₁ ++ ms₂) =
      processVideoPhase g frames ms₁ ++ processVideoPhase g frames ms₂ := by
  induction ms₁ with
  | nil => rfl
  | cons m ms ih => simp [processVideoPhase, ih]

theorem mem_processImagePhase {g : Globals} {ms : List FrameProcessorModule} {e : Event}
    (h : e ∈ processImagePhase g ms) :
    ∃ m ∈ ms, e = Event.status m.NAME "Progressing..." ∨
      e = Event.processImage m.NAME g.source_path g.output_path g.output_path ∨
      e = Event.postProcess m.NAME := by
  induction ms with
  | nil => simp [processImagePhase] at h
  | cons m ms ih =>
    simp only [processImagePhase, List.mem_cons] at h
    rcases h with h | h | h | h
    · exact ⟨m, List.mem_cons_self m ms, Or.inl h⟩
    · exact ⟨m, List.mem_cons_self m ms, Or.inr (Or.inl h)⟩
    · exact ⟨m, List.mem_cons_self m ms, Or.inr (Or.inr h)⟩
    · rcases ih h with ⟨m', hm', he⟩
      exact ⟨m', List.mem_cons_of_mem m hm', he⟩

theorem mem_processVideoPhase {g : Globals} {frames : List String}
    {ms : List FrameProcessorModule} {e : Event}
    (h : e ∈ processVideoPhase g frames ms) :
    ∃ m ∈ ms, e = Event.status m.NAME "Progressing..." ∨
      e = Event.processVideo m.NAME g.source_path frames ∨
      e = Event.postProcess m.NAME := by
  induction ms with
  | nil => simp [processVideoPhase] at h
  | cons m ms ih =>
    simp only [processVideoPhase, List.mem_cons] at h
    rcases h with h | h | h | h
    · exact ⟨m, List.mem_cons_self m ms, Or.inl h⟩
    · exact ⟨m, List.mem_cons_self m ms, Or.inr (Or.inl h)⟩
    · exact ⟨m, List.mem_cons_self m ms, Or.inr (Or.inr h)⟩
    · rcases ih h with ⟨m', hm', he⟩
      exact ⟨m', List.mem_cons_of_mem m hm', he⟩

theorem mem_extractSegment {g : Globals} {env : Env} {e : Event}
    (h : e ∈ extractSegment g env) :
    (∃ s, e = Event.status "ROOP.CORE" s) ∨
    (g.keep_fps = true ∧
      e = Event.extractFrames g.target_path (some (env.detect_fps g.target_path))) ∨
    (g.keep_fps = false ∧ e = Event.extractFrames g.target_path none) := by
  unfold extractSegment at h
  cases hk : g.keep_fps <;> simp [hk] at h <;> rcases h with h | h
  · exact Or.inl ⟨_, h⟩
  · exact Or.inr (Or.inr ⟨rfl, h⟩)
  · exact Or.inl ⟨_, h⟩
  · exact Or.inr (Or.inl ⟨rfl, h⟩)

theorem mem_createVideoSegment {g : Globals} {env : Env} {e : Event}
    (h : e ∈ createVideoSegment g env) :
    (∃ s, e = Event.status "ROOP.CORE" s) ∨
    (g.keep_fps = true ∧
      e = Event.createVideo g.target_path (some (env.detect_fps g.target_path))) ∨
    (g.keep_fps = false ∧ e = Event.createVideo g.target_path none) := by
  unfold createVideoSegment at h
  cases hk : g.keep_fps <;> simp [hk] at h
  · rcases h with h | h | h
    · exact Or.inl ⟨_, h⟩
    · exact Or.inr (Or.inr ⟨rfl, h⟩)
    · exact Or.inl ⟨_, h.2⟩
  · rcases h with h | h | h
    · exact Or.inl ⟨_, h⟩
    · exact Or.inr (Or.inl ⟨rfl, h⟩)
    · exact Or.inl ⟨_, h.2⟩

theorem mem_audioSegment {g : Globals} {e : Event}
    (h : e ∈ audioSegment g) :
    (∃ s, e = Event.status "ROOP.CORE" s) ∨
    (g.skip_audio = true ∧ e = Event.moveTemp g.target_path g.output_path) ∨
    (g.skip_audio = false ∧ e = Event.restoreAudio g.target_path g.output_path) := by
  unfold audioSegment at h
  cases hs : g.skip_audio <;> simp [hs] at h
  · cases hk : g.keep_fps <;> simp [hk] at h <;> rcases h with h | h
    · exact Or.inl ⟨_, h⟩
    · exact Or.inr (Or.inr ⟨rfl, h⟩)
    · exact Or.inl ⟨_, h⟩
    · exact Or.inr (Or.inr ⟨rfl, h⟩)
  · rcases h with h | h
    · exact Or.inr (Or.inl ⟨rfl, h⟩)
    · exact Or.inl ⟨_, h⟩

/-- Shape of `start` on the image path when every `pre_start` passes. -/
theorem start_eq_image {g : Globals} {env : Env}
    (hps : env.modules.all (fun m => m.pre_start_result) = true)
    (himg : env.has_image_extension g.target_path = true) :
    start g env =
      ((preStartPhase env.modules).1 ++
       Event.copyFile g.target_path g.output_path ::
       processImagePhase g env.modules) ++ [imageValidationEvent g env] := by
  unfold start
  rw [preStartPhase_snd, hps, himg]
  simp

/-- Shape of `start` on the video path when every `pre_start` passes and
extraction produced at least one frame. -/
theorem start_eq_video {g : Globals} {env : Env}
    (hps : env.modules.all (fun m => m.pre_start_result) = true)
    (himg : env.has_image_extension g.target_path = false)
    (hfr : (env.temp_frame_paths g.target_path).isEmpty = false) :
    start g env =
      ((preStartPhase env.modules).1 ++
       Event.status "ROOP.CORE" "Creating temporary resources..." ::
       Event.createTemp g.target_path ::
       (extractSegment g env ++
        processVideoPhase g (env.temp_frame_paths g.target_path) env.modules ++
        createVideoSegment g env ++
        audioSegment g ++
        [Event.status "ROOP.CORE" "Cleaning temporary resources...",
         Event.cleanTemp g.target_path])) ++ [videoValidationEvent g env] := by
  unfold start
  rw [preStartPhase_snd, hps, himg, hfr]
  simp

/-- Shape of `start` on the video path when every `pre_start` passes and
extraction produced no frames: the Python code returns right after the
`Temporary frames not found...` status, so no cleanup follows. -/
theorem start_eq_video_noframes {g : Globals} {env : Env}
    (hps : env.modules.all (fun m => m.pre_start_result) = true)
    (himg : env.has_image_extension g.target_path = false)
    (hfr : env.temp_frame_paths g.target_path = []) :
    start g env =
      ((preStartPhase env.modules).1 ++
       Event.status "ROOP.CORE" "Creating temporary resources..." ::
       Event.createTemp g.target_path ::
       extractSegment g env) ++
      [Event.status "ROOP.CORE" "Temporary frames not found..."] := by
  unfold start
  rw [preStartPhase_snd, hps, himg, hfr]
  simp

/-- Shape of `run` when the core checks and every module's `pre_check`
pass: `limit_resources` runs after the whole `pre_check` loop. -/
theorem run_eq_checks_pass {g : Globals} {env : Env}
    (hpy : env.python_version_ok = true) (hff : env.ffmpeg_present = true)
    (hpc : env.modules.all (fun m => m.pre_check_result) = true) :
    run g env =
      Event.parseArgs ::
      ((preCheckPhase env.modules).1 ++
       Event.limitResources ::
       (if g.headless then start g env else [Event.uiInit])) := by
  unfold run core_pre_check
  rw [preCheckPhase_snd, hpy, hff, hpc]
  simp

/-- Shape of `start` when some module's `pre_start` fails: the Python
code returns inside the loop, so only `pre_start` calls happen. -/
theorem start_eq_prestart_fail {g : Globals} {env : Env}
    (h : env.modules.all (fun m => m.pre_start_result) = false) :
    start g env = (preStartPhase env.modules).1 := by
  unfold start
  rw [preStartPhase_snd, h]
  simp

/-- Every event of `start` is one of the calls the Python `start`
function can make; in particular the fps argument of an extraction or
reassembly call is the detected fps exactly when `keep_fps` is set. -/
theorem mem_start_kinds {g : Globals} {env : Env} {e : Event} (h : e ∈ start g env) :
    (∃ s, e = Event.preStartCall s) ∨
    (∃ s m, e = Event.status s m) ∨
    e = Event.copyFile g.target_path g.output_path ∨
    e = Event.createTemp g.target_path ∨
    e = Event.extractFrames g.target_path
        (if g.keep_fps then some (env.detect_fps g.target_path) else none) ∨
    (∃ n, e = Event.processImage n g.source_path g.output_path g.output_path) ∨
    (∃ n fr, e = Event.processVideo n g.source_path fr) ∨
    (∃ n, e = Event.postProcess n) ∨
    e = Event.createVideo g.target_path
        (if g.keep_fps then some (env.detect_fps g.target_path) else none) ∨
    e = Event.moveTemp g.target_path g.output_path ∨
    e = Event.restoreAudio g.target_path g.output_path ∨
    e = Event.cleanTemp g.target_path := by
  unfold start at h
  rcases List.mem_append.1 h with h | h
  · rcases mem_preStartPhase_fst h with ⟨m, _, rfl⟩
    simp
  split at h
  · simp at h
  split at h
  · rcases List.mem_cons.1 h with rfl | h
    · simp
    rcases List.mem_append.1 h with h | h
    · rcases mem_processImagePhase h with ⟨m, _, rfl | rfl | rfl⟩ <;> simp
    · simp only [List.mem_singleton] at h
      subst h
      unfold imageValidationEvent
      split <;> simp
  · rcases List.mem_cons.1 h with rfl | h
    · simp
    rcases List.mem_cons.1 h with rfl | h
    · simp
    rcases List.mem_append.1 h with h | h
    · rcases mem_extractSegment h with ⟨s, rfl⟩ | ⟨hk, rfl⟩ | ⟨hk, rfl⟩ <;> simp_all
    split at h
    · simp only [List.mem_singleton] at h
      subst h
      simp
    rcases List.mem_append.1 h with h | h
    · rcases List.mem_append.1 h with h | h
      · rcases List.mem_append.1 h with h | h
        · rcases mem_processVideoPhase h with ⟨m, _, rfl | rfl | rfl⟩ <;> simp
        · rcases mem_createVideoSegment h with ⟨s, rfl⟩ | ⟨hk, rfl⟩ | ⟨hk, rfl⟩ <;> simp_all
      · rcases mem_audioSegment h with ⟨s, rfl⟩ | ⟨hs, rfl⟩ | ⟨hs, rfl⟩ <;> simp
    · rcases List.mem_cons.1 h with rfl | h
      · simp
      rcases List.mem_cons.1 h with rfl | h
      · simp
      simp only [List.mem_singleton] at h
      subst h
      unfold videoValidationEvent
      split <;> simp

/-- `limit_resources` is never called from inside `start`. -/
theorem limitResources_not_mem_start (g : Globals) (env : Env) :
    Event.limitResources ∉ start g env := by
  intro h
  rcases mem_start_kinds h with ⟨s, hs⟩ | ⟨s, m, hs⟩ | hs | hs | hs | ⟨n, hs⟩ |
    ⟨n, fr, hs⟩ | ⟨n, hs⟩ | hs | hs | hs | hs <;> cases hs

/-- When every module passes `pre_check`, the `pre_check` loop calls
every module. -/
theorem mem_preCheckPhase_of_all {ms : List FrameProcessorModule}
    (hall : ms.all (fun m => m.pre_check_result) = true) :
    ∀ m ∈ ms, Event.preCheckCall m.NAME ∈ (preCheckPhase ms).1 := by
  induction ms with
  | nil => intro m hm; simp at hm
  | cons a ms ih =>
    intro m hm
    simp only [List.all_cons, Bool.and_eq_true] at hall
    rcases List.mem_cons.1 hm with rfl | hm
    · simp [preCheckPhase, hall.1]
    · simp only [preCheckPhase, hall.1, if_true, List.mem_cons]
      exact Or.inr (ih hall.2 m hm)

/-- Events of `core_pre_check` are status messages only. -/
theorem mem_core_pre_check_fst {env : Env} {e : Event}
    (h : e ∈ (core_pre_check env).1) : ∃ s, e = Event.status "ROOP.CORE" s := by
  unfold core_pre_check at h
  cases hpy : env.python_version_ok <;> cases hff : env.ffmpeg_present <;>
    simp [hpy, hff] at h
  all_goals exact ⟨_, h⟩

/-! ## Helper lemmas for provider resolution -/

theorem mem_zip_map {α β : Type} (f : α → β) :
    ∀ {l : List α} {pe : α × β}, pe ∈ l.zip (l.map f) → pe.1 ∈ l ∧ pe.2 = f pe.1 := by
  intro l
  induction l with
  | nil => intro pe h; simp at h
  | cons a l ih =>
    intro pe h
    simp only [List.map_cons, List.zip_cons_cons, List.mem_cons] at h
    rcases h with h | h
    · subst h; exact ⟨List.mem_cons_self a l, rfl⟩
    · rcases ih h with ⟨h1, h2⟩
      exact ⟨List.mem_cons_of_mem a h1, h2⟩

theorem mem_zip_map_self {α β : Type} (f : α → β) {a : α} :
    ∀ {l : List α}, a ∈ l → (a, f a) ∈ l.zip (l.map f) := by
  intro l
  induction l with
  | nil => intro h; simp at h
  | cons b l ih =>
    intro h
    simp only [List.map_cons, List.zip_cons_cons, List.mem_cons]
    rcases List.mem_cons.1 h with h | h
    · subst h; exact Or.inl rfl
    · exact Or.inr (ih h)

theorem filter_zip_map_fst_sublist {α β : Type} (f : α → β) (p : α × β → Bool) :
    ∀ l : List α, (((l.zip (l.map f)).filter p).map Prod.fst).Sublist l := by
  intro l
  induction l with
  | nil => simp
  | cons a l ih =>
    simp only [List.map_cons, List.zip_cons_cons, List.filter_cons]
    by_cases h : p (a, f a) = true
    · rw [if_pos h]
      simpa using List.Sublist.cons₂ a ih
    · rw [if_neg h]
      exact List.Sublist.cons a ih

theorem isPrefixOf_self (l : List Char) : l.isPrefixOf l = true :=
  List.isPrefixOf_iff_prefix.2 (List.prefix_refl l)

theorem containsSub_self (l : List Char) : containsSub l l = true := by
  cases l with
  | nil => rfl
  | cons c rest => simp [containsSub, isPrefixOf_self]

theorem inStr_self (s : String) : inStr s s = true :=
  containsSub_self s.data

/-! ## Claim C3 -/

/-- C3: for every requested provider list and every runtime-reported
provider list, `decode_execution_providers` returns a sub-sequence of the
runtime-reported availability ordering (so the result's relative order
is the runtime's order, never the request order), and a requested token
that matches no available provider's encoding is silently dropped: it is
no error, and adding such a token to the request leaves the result
unchanged. -/
theorem decode_providers_sublist_of_available (requested available : List String) :
    (decode_execution_providers requested available).Sublist available ∧
    ∀ r : String, (∀ p ∈ available, inStr r (encode_execution_provider p) = false) →
      decode_execution_providers (r :: requested) available =
        decode_execution_providers requested available := by
  constructor
  · exact filter_zip_map_fst_sublist encode_execution_provider _ available
  · intro r hr
    unfold decode_execution_providers
    congr 1
    apply List.filter_congr
    intro pe hpe
    have hmem := mem_zip_map encode_execution_provider hpe
    simp only [List.any_cons]
    rw [hmem.2, hr pe.1 hmem.1]
    simp

/-- Witness for C3 at concrete inputs: the resolved list for request
`["cpu"]` against availability `["CPUExecutionProvider",
"CUDAExecutionProvider"]` is a sub-sequence of the availability list,
and adding the unmatched token `"tensorrt"` changes nothing. -/
theorem decode_providers_sublist_of_available_witness :
    (decode_execution_providers ["cpu"]
        ["CPUExecutionProvider", "CUDAExecutionProvider"]).Sublist
      ["CPUExecutionProvider", "CUDAExecutionProvider"] ∧
    decode_execution_providers ["tensorrt", "cpu"]
        ["CPUExecutionProvider", "CUDAExecutionProvider"] =
      decode_execution_providers ["cpu"]
        ["CPUExecutionProvider", "CUDAExecutionProvider"] :=
  ⟨(decode_providers_sublist_of_available ["cpu"]
      ["CPUExecutionProvider", "CUDAExecutionProvider"]).1,
   (decode_providers_sublist_of_available ["cpu"]
      ["CPUExecutionProvider", "CUDAExecutionProvider"]).2 "tensorrt" (by decide)⟩

/-! ## Claim C4 -/

/-- C4 counterexample: with availability `["CPUExecutionProvider"]` and
request `["tensorrt"]` no requested provider matches, yet
`decode_execution_providers` neither fails with an error nor falls back
to a CPU provider: it silently returns the empty list, refuting the
claim that the resolved set is never silently left empty. -/
theorem decode_providers_fallback_counterexample :
    decode_execution_providers ["tensorrt"] ["CPUExecutionProvider"] = [] := by
  decide

/-- C4 amended: `decode_execution_providers` raises no error and has no
CPU fallback: when no requested token substring-matches any available
provider's encoded name it returns the empty list silently.  The only
guard in the code is the argparse `choices` constraint (line 47), which
admits exactly the encoded available names; any request list validated
by it resolves to a non-empty provider list. -/
theorem decode_providers_no_fallback (requested available : List String) :
    ((∀ r ∈ requested, ∀ p ∈ available, inStr r (encode_execution_provider p) = false) →
      decode_execution_providers requested available = []) ∧
    (∀ r ∈ requested, r ∈ encode_execution_providers available →
      decode_execution_providers requested available ≠ []) := by
  constructor
  · intro h
    unfold decode_execution_providers
    have : (available.zip (encode_execution_providers available)).filter
        (fun pe => requested.any (fun execution_provider => inStr execution_provider pe.2)) = [] := by
      rw [List.filter_eq_nil_iff]
      intro pe hpe
      have hmem := mem_zip_map encode_execution_provider hpe
      simp only [Bool.not_eq_true, List.any_eq_false]
      intro r hr
      rw [hmem.2]
      exact h r hr pe.1 hmem.1
    rw [this]
    rfl
  · intro r hr hre
    rcases List.mem_map.1 hre with ⟨p, hp, hpe⟩
    have hzip : (p, encode_execution_provider p) ∈
        available.zip (encode_execution_providers available) :=
      mem_zip_map_self encode_execution_provider hp
    have hpred : (fun pe : String × String =>
        requested.any (fun execution_provider => inStr execution_provider pe.2))
          (p, encode_execution_provider p) = true := by
      apply List.any_eq_true.2
      refine ⟨r, hr, ?_⟩
      rw [hpe]
      exact inStr_self r
    have hfil : (p, encode_execution_provider p) ∈
        (available.zip (encode_execution_providers available)).filter
          (fun pe => requested.any (fun execution_provider => inStr execution_provider pe.2)) :=
      List.mem_filter.2 ⟨hzip, hpred⟩
    exact List.ne_nil_of_mem (List.mem_map_of_mem Prod.fst hfil)

/-- Witness for C4 amended at concrete inputs: an all-unmatched request
resolves to `[]`, and a `choices`-validated request (`"cpu"` is the
encoding of the available `"CPUExecutionProvider"`) resolves
non-empty. -/
theorem decode_providers_no_fallback_witness :
    decode_execution_providers ["tensorrt"] ["CUDAExecutionProvider"] = [] ∧
    decode_execution_providers ["cpu"] ["CPUExecutionProvider"] ≠ [] :=
  ⟨(decode_providers_no_fallback ["tensorrt"] ["CUDAExecutionProvider"]).1 (by decide),
   (decode_providers_no_fallback ["cpu"] ["CPUExecutionProvider"]).2 "cpu" (by decide) (by decide)⟩

/-! ## Claim C1 -/

/-- C1 counterexample: for the concrete video job `gVideo` in the
environment `envVideoNoFrames` where extraction yields zero frames, the
temp workspace is created and the `no frames` failure is reported, but
`clean_temp` is never executed before the run ends — `start` returns at
the `Temporary frames not found...` status (core.py line 177), skipping
the cleanup at line 200.  This refutes the part of the claim that the
workspace discard is still executed. -/
theorem no_frames_cleanup_counterexample :
    Event.createTemp "clip.mp4" ∈ start gVideo envVideoNoFrames ∧
    Event.status "ROOP.CORE" "Temporary frames not found..." ∈ start gVideo envVideoNoFrames ∧
    Event.cleanTemp "clip.mp4" ∉ start gVideo envVideoNoFrames := by
  decide

/-- C1 amended: on the video path, if frame extraction produces zero
frames the job is reported as failed with the `Temporary frames not
found...` status and the run ends immediately there — `clean_temp` is
NOT executed on this path (the workspace created earlier is left
behind). -/
theorem no_frames_reported_without_cleanup (g : Globals) (env : Env)
    (hps : ∀ m ∈ env.modules, m.pre_start_result = true)
    (himg : env.has_image_extension g.target_path = false)
    (hfr : env.temp_frame_paths g.target_path = []) :
    Event.createTemp g.target_path ∈ start g env ∧
    (start g env).getLast? =
      some (Event.status "ROOP.CORE" "Temporary frames not found...") ∧
    ∀ t, Event.cleanTemp t ∉ start g env := by
  have hall : env.modules.all (fun m => m.pre_start_result) = true := List.all_eq_true.2 hps
  rw [start_eq_video_noframes hall himg hfr]
  refine ⟨?_, ?_, ?_⟩
  · simp
  · rw [List.getLast?_concat]
  · intro t h
    rcases List.mem_append.1 h with h | h
    · rcases List.mem_append.1 h with h | h
      · rcases mem_preStartPhase_fst h with ⟨m, _, he⟩
        simp at he
      · rcases List.mem_cons.1 h with h | h
        · simp at h
        rcases List.mem_cons.1 h with h | h
        · simp at h
        rcases mem_extractSegment h with ⟨s, hs⟩ | ⟨_, hs⟩ | ⟨_, hs⟩ <;> simp at hs
    · simp at h

/-- Witness for the amended C1 at the concrete no-frame video job. -/
theorem no_frames_reported_without_cleanup_witness :
    Event.createTemp "clip.mp4" ∈ start gVideo envVideoNoFrames ∧
    (start gVideo envVideoNoFrames).getLast? =
      some (Event.status "ROOP.CORE" "Temporary frames not found...") ∧
    Event.cleanTemp "out.mp4" ∉ start gVideo envVideoNoFrames :=
  ⟨(no_frames_reported_without_cleanup gVideo envVideoNoFrames (by decide) (by decide)
      (by decide)).1,
   (no_frames_reported_without_cleanup gVideo envVideoNoFrames (by decide) (by decide)
      (by decide)).2.1,
   (no_frames_reported_without_cleanup gVideo envVideoNoFrames (by decide) (by decide)
      (by decide)).2.2 "out.mp4"⟩

/-! ## Claim C2 -/

/-- C2 counterexample: for the concrete image job `gImage` in `envImage`
the final status is `Processing to image succeed!` even though the
produced output path fails the `is_image` check — `core.py` line 150
applies `is_image` to `roop.globals.target_path`, not to the produced
output, refuting the claim that success is reported iff the output
passes the media-type validity check. -/
theorem validation_on_output_counterexample :
    (start gImage envImage).getLast? =
      some (Event.status "ROOP.CORE" "Processing to image succeed!") ∧
    envImage.is_image gImage.output_path = false := by
  decide

/-- C2 amended: for every completed job, success is reported iff the
TARGET path (not the produced output) passes the media-type validity
check: `is_image(target_path)` on the image path (core.py line 150) and
`is_video(target_path)` on the video path (line 202); failure is
reported otherwise. -/
theorem validation_checks_target_path (g : Globals) (env : Env)
    (hps : ∀ m ∈ env.modules, m.pre_start_result = true) :
    (env.has_image_extension g.target_path = true →
      ((start g env).getLast? =
          some (Event.status "ROOP.CORE" "Processing to image succeed!") ↔
        env.is_image g.target_path = true)) ∧
    (env.has_image_extension g.target_path = false →
     (env.temp_frame_paths g.target_path).isEmpty = false →
      ((start g env).getLast? =
          some (Event.status "ROOP.CORE" "Processing to video succeed!") ↔
        env.is_video g.target_path = true)) := by
  have hall : env.modules.all (fun m => m.pre_start_result) = true := List.all_eq_true.2 hps
  constructor
  · intro himg
    rw [start_eq_image hall himg, List.getLast?_concat]
    unfold imageValidationEvent
    cases hi : env.is_image g.target_path <;> simp [hi]
  · intro himg hfr
    rw [start_eq_video hall himg hfr, List.getLast?_concat]
    unfold videoValidationEvent
    cases hv : env.is_video g.target_path <;> simp [hv]

/-- Witness for the amended C2: on the concrete image job the reported
status matches the check of the target path, and on the concrete video
job with frames the final status is the video-failure status because
`is_video` fails on the target. -/
theorem validation_checks_target_path_witness :
    ((start gImage envImage).getLast? =
        some (Event.status "ROOP.CORE" "Processing to image succeed!") ↔
      envImage.is_image gImage.target_path = true) ∧
    ((start gVideo envVideoCreateFail).getLast? =
        some (Event.status "ROOP.CORE" "Processing to video succeed!") ↔
      envVideoCreateFail.is_video gVideo.target_path = true) :=
  ⟨(validation_checks_target_path gImage envImage (by decide)).1 (by decide),
   (validation_checks_target_path gVideo envVideoCreateFail (by decide)).2 (by decide)
     (by decide)⟩

/-! ## Claim C5 -/

/-- C5: if any configured stage's `pre_check` or `pre_start` returns
false, the run aborts before any workspace is created and before any
output artifact is written: no event of the whole `run` trace touches
the filesystem. -/
theorem preflight_failure_no_fs_effects (g : Globals) (env : Env)
    (h : ∃ m ∈ env.modules, m.pre_check_result = false ∨ m.pre_start_result = false) :
    ∀ e ∈ run g env, isFsEffect e = false := by
  intro e he
  unfold run at he
  rcases List.mem_cons.1 he with rfl | he
  · rfl
  rcases List.mem_append.1 he with he | he
  · rcases mem_core_pre_check_fst he with ⟨s, rfl⟩
    rfl
  by_cases hcc : (core_pre_check env).2 = true
  case neg =>
    rw [Bool.not_eq_true] at hcc
    rw [hcc] at he
    simp at he
  rw [hcc] at he
  simp only [Bool.not_true, Bool.false_eq_true, if_false] at he
  rcases List.mem_append.1 he with he | he
  · rcases mem_preCheckPhase_fst he with ⟨m, _, rfl⟩
    rfl
  by_cases hpc : (preCheckPhase env.modules).2 = true
  case neg =>
    rw [Bool.not_eq_true] at hpc
    rw [hpc] at he
    simp at he
  rw [hpc] at he
  simp only [Bool.not_true, Bool.false_eq_true, if_false] at he
  rcases List.mem_cons.1 he with rfl | he
  · rfl
  have hallpc : env.modules.all (fun m => m.pre_check_result) = true := by
    rw [preCheckPhase_snd] at hpc
    exact hpc
  have hpsf : env.modules.all (fun m => m.pre_start_result) = false := by
    rcases h with ⟨m, hm, hcase | hcase⟩
    · exfalso
      have := List.all_eq_true.1 hallpc m hm
      rw [hcase] at this
      cases this
    · cases hall : env.modules.all (fun m => m.pre_start_result)
      · rfl
      · exfalso
        have := List.all_eq_true.1 hall m hm
        rw [hcase] at this
        cases this
  cases hh : g.headless <;> rw [hh] at he <;> simp at he
  · subst he
    rfl
  · rw [start_eq_prestart_fail hpsf] at he
    rcases mem_preStartPhase_fst he with ⟨m, _, rfl⟩
    rfl

/-- Witness for C5: in the concrete run where the single module's
`pre_check` fails, the event of its `pre_check` call (a member of the
trace) has no filesystem effect. -/
theorem preflight_failure_no_fs_effects_witness :
    isFsEffect (Event.preCheckCall "face_swapper") = false :=
  preflight_failure_no_fs_effects gVideo envPreCheckFail
    ⟨modulePreCheckFail, by decide, Or.inl (by decide)⟩
    (Event.preCheckCall "face_swapper") (by decide)

/-! ## Claim C6 -/

/-- C6: stages run strictly sequentially in registration order on both
paths: for every pair of consecutive stages `a` and `b` in the module
list, the trace of `start` contains (contiguously) `a`'s processing
call, then `a`'s `post_process`, then `b`'s status and processing call —
so stage `a`'s processing and `post_process` both complete before stage
`b`'s processing call begins. -/
theorem stages_sequential (g : Globals) (env : Env)
    (pre post : List FrameProcessorModule) (a b : FrameProcessorModule)
    (hmods : env.modules = pre ++ a :: b :: post)
    (hps : ∀ m ∈ env.modules, m.pre_start_result = true) :
    (env.has_image_extension g.target_path = true →
      ∃ l₁ l₂, start g env = l₁ ++
        Event.processImage a.NAME g.source_path g.output_path g.output_path ::
        Event.postProcess a.NAME ::
        Event.status b.NAME "Progressing..." ::
        Event.processImage b.NAME g.source_path g.output_path g.output_path ::
        Event.postProcess b.NAME :: l₂) ∧
    (env.has_image_extension g.target_path = false →
     (env.temp_frame_paths g.target_path).isEmpty = false →
      ∃ l₁ l₂, start g env = l₁ ++
        Event.processVideo a.NAME g.source_path (env.temp_frame_paths g.target_path) ::
        Event.postProcess a.NAME ::
        Event.status b.NAME "Progressing..." ::
        Event.processVideo b.NAME g.source_path (env.temp_frame_paths g.target_path) ::
        Event.postProcess b.NAME :: l₂) := by
  have hall : env.modules.all (fun m => m.pre_start_result) = true := List.all_eq_true.2 hps
  constructor
  · intro himg
    rw [start_eq_image hall himg, hmods, processImagePhase_append]
    refine ⟨(preStartPhase (pre ++ a :: b :: post)).1 ++
        Event.copyFile g.target_path g.output_path ::
        (processImagePhase g pre ++ [Event.status a.NAME "Progressing..."]),
      processImagePhase g post ++ [imageValidationEvent g env], ?_⟩
    simp [processImagePhase]
  · intro himg hfr
    rw [start_eq_video hall himg hfr, hmods, processVideoPhase_append]
    refine ⟨(preStartPhase (pre ++ a :: b :: post)).1 ++
        Event.status "ROOP.CORE" "Creating temporary resources..." ::
        Event.createTemp g.target_path ::
        (extractSegment g env ++
         (processVideoPhase g (env.temp_frame_paths g.target_path) pre ++
          [Event.status a.NAME "Progressing..."])),
      processVideoPhase g (env.temp_frame_paths g.target_path) post ++
        createVideoSegment g env ++ audioSegment g ++
        [Event.status "ROOP.CORE" "Cleaning temporary resources...",
         Event.cleanTemp g.target_path] ++ [videoValidationEvent g env], ?_⟩
    simp [processVideoPhase]

/-- Witness for C6 at the concrete image job with the two stages
`face_swapper` and `face_enhancer`. -/
theorem stages_sequential_witness :
    ∃ l₁ l₂, start gImage envImage = l₁ ++
      Event.processImage "face_swapper" "face.png" "out.png" "out.png" ::
      Event.postProcess "face_swapper" ::
      Event.status "face_enhancer" "Progressing..." ::
      Event.processImage "face_enhancer" "face.png" "out.png" "out.png" ::
      Event.postProcess "face_enhancer" :: l₂ :=
  (stages_sequential gImage envImage [] [] moduleA moduleB rfl (by decide)).1 rfl

/-! ## Claim C7 -/

/-- C7 counterexample: in the concrete run `run gUi envOneModule` the
module's `pre_check` call happens at index 1, strictly before
`limit_resources` at index 2 — `core.py` calls `limit_resources()` (line
221) only after the whole `pre_check` loop (lines 218-220), refuting the
claim that `limit_resources` runs before any stage's `pre_check`. -/
theorem limit_resources_order_counterexample :
    run gUi envOneModule =
      [Event.parseArgs, Event.preCheckCall "face_swapper",
       Event.limitResources, Event.uiInit] ∧
    (run gUi envOneModule).indexOf (Event.preCheckCall "face_swapper") <
      (run gUi envOneModule).indexOf Event.limitResources := by
  decide

/-- C7 amended: `limit_resources` runs exactly once per run, after
configuration resolution (`parse_args`) and after EVERY processor
stage's `pre_check`, but before any stage's `pre_start` (hence before
any processing): the trace splits as `l₁ ++ limitResources :: l₂` with
`limitResources` in neither side, all `pre_check` calls in `l₁`, and no
`pre_start` call in `l₁`. -/
theorem limit_resources_once_after_prechecks (g : Globals) (env : Env)
    (hpy : env.python_version_ok = true) (hff : env.ffmpeg_present = true)
    (hpc : ∀ m ∈ env.modules, m.pre_check_result = true) :
    ∃ l₁ l₂, run g env = l₁ ++ Event.limitResources :: l₂ ∧
      Event.parseArgs ∈ l₁ ∧
      Event.limitResources ∉ l₁ ∧ Event.limitResources ∉ l₂ ∧
      (∀ m ∈ env.modules, Event.preCheckCall m.NAME ∈ l₁) ∧
      (∀ s, Event.preStartCall s ∉ l₁) := by
  have hall : env.modules.all (fun m => m.pre_check_result) = true := List.all_eq_true.2 hpc
  refine ⟨Event.parseArgs :: (preCheckPhase env.modules).1,
    (if g.headless then start g env else [Event.uiInit]), ?_, ?_, ?_, ?_, ?_, ?_⟩
  · rw [run_eq_checks_pass hpy hff hall]
    simp
  · exact List.mem_cons_self _ _
  · intro h
    rcases List.mem_cons.1 h with h | h
    · cases h
    · rcases mem_preCheckPhase_fst h with ⟨m, _, hs⟩
      cases hs
  · intro h
    cases hh : g.headless <;> rw [hh] at h <;> simp at h
    exact limitResources_not_mem_start g env h
  · intro m hm
    exact List.mem_cons_of_mem _ (mem_preCheckPhase_of_all hall m hm)
  · intro s h
    rcases List.mem_cons.1 h with h | h
    · cases h
    · rcases mem_preCheckPhase_fst h with ⟨m, _, hs⟩
      cases hs

/-- Witness for the amended C7 at the concrete headless video run. -/
theorem limit_resources_once_after_prechecks_witness :
    ∃ l₁ l₂, run gVideo envOneModule = l₁ ++ Event.limitResources :: l₂ ∧
      Event.parseArgs ∈ l₁ ∧
      Event.limitResources ∉ l₁ ∧ Event.limitResources ∉ l₂ ∧
      (∀ m ∈ envOneModule.modules, Event.preCheckCall m.NAME ∈ l₁) ∧
      (∀ s, Event.preStartCall s ∉ l₁) :=
  limit_resources_once_after_prechecks gVideo envOneModule rfl rfl (by decide)

/-! ## Claim C8 -/

/-- C8: on the video path a reassembly (`create_video`) failure is
non-fatal: the failure is recorded as the `Creating video failed...`
status and the run still proceeds through audio handling (`move_temp`
when audio is skipped, `restore_audio` otherwise) and the workspace
cleanup (`clean_temp`), in that order. -/
theorem create_video_failure_nonfatal (g : Globals) (env : Env)
    (hps : ∀ m ∈ env.modules, m.pre_start_result = true)
    (himg : env.has_image_extension g.target_path = false)
    (hfr : (env.temp_frame_paths g.target_path).isEmpty = false)
    (hfail : ∀ f, env.create_video_ok g.target_path f = false) :
    ∃ l₁ l₂ l₃, start g env =
      l₁ ++ Event.status "ROOP.CORE" "Creating video failed..." ::
      (l₂ ++ Event.cleanTemp g.target_path :: l₃) ∧
      (g.skip_audio = true → Event.moveTemp g.target_path g.output_path ∈ l₂) ∧
      (g.skip_audio = false → Event.restoreAudio g.target_path g.output_path ∈ l₂) := by
  have hall : env.modules.all (fun m => m.pre_start_result) = true := List.all_eq_true.2 hps
  cases hk : g.keep_fps
  · refine ⟨(preStartPhase env.modules).1 ++
        Event.status "ROOP.CORE" "Creating temporary resources..." ::
        Event.createTemp g.target_path ::
        (extractSegment g env ++
         processVideoPhase g (env.temp_frame_paths g.target_path) env.modules ++
         [Event.status "ROOP.CORE" "Creating video with 30 FPS...",
          Event.createVideo g.target_path none]),
      audioSegment g ++ [Event.status "ROOP.CORE" "Cleaning temporary resources..."],
      [videoValidationEvent g env], ?_, ?_, ?_⟩
    · rw [start_eq_video hall himg hfr]
      simp [createVideoSegment, hk, hfail]
    · intro hsa
      simp [audioSegment, hsa]
    · intro hsa
      simp [audioSegment, hsa, hk]
  · refine ⟨(preStartPhase env.modules).1 ++
        Event.status "ROOP.CORE" "Creating temporary resources..." ::
        Event.createTemp g.target_path ::
        (extractSegment g env ++
         processVideoPhase g (env.temp_frame_paths g.target_path) env.modules ++
         [Event.status "ROOP.CORE"
            ("Creating video with " ++ toString (env.detect_fps g.target_path) ++ " FPS..."),
          Event.createVideo g.target_path (some (env.detect_fps g.target_path))]),
      audioSegment g ++ [Event.status "ROOP.CORE" "Cleaning temporary resources..."],
      [videoValidationEvent g env], ?_, ?_, ?_⟩
    · rw [start_eq_video hall himg hfr]
      simp [createVideoSegment, hk, hfail]
    · intro hsa
      simp [audioSegment, hsa]
    · intro hsa
      simp [audioSegment, hsa, hk]

/-- Witness for C8 at the concrete video job whose reassembly fails. -/
theorem create_video_failure_nonfatal_witness :
    ∃ l₁ l₂ l₃, start gVideo envVideoCreateFail =
      l₁ ++ Event.status "ROOP.CORE" "Creating video failed..." ::
      (l₂ ++ Event.cleanTemp gVideo.target_path :: l₃) ∧
      (gVideo.skip_audio = true →
        Event.moveTemp gVideo.target_path gVideo.output_path ∈ l₂) ∧
      (gVideo.skip_audio = false →
        Event.restoreAudio gVideo.target_path gVideo.output_path ∈ l₂) :=
  create_video_failure_nonfatal gVideo envVideoCreateFail (by decide) (by decide)
    (by decide) (fun _ => rfl)

/-! ## Claim C9 -/

/-- C9: on an external interrupt the registered handler (`destroy`,
core.py lines 208-211, registered for SIGINT at line 28) discards the
temp workspace for the current job's target whenever a target path is
set — unconditionally, with no check that the workspace exists — and
then terminates the process, which is always the trace's last event. -/
theorem interrupt_cleanup_then_exit (target_path : Option String) :
    (∀ t, target_path = some t →
      destroy target_path = [Event.cleanTemp t, Event.exitProcess]) ∧
    (destroy target_path).getLast? = some Event.exitProcess := by
  constructor
  · intro t ht
    subst ht
    rfl
  · cases target_path <;> rfl

/-- Witness for C9 with the target path set to `clip.mp4`. -/
theorem interrupt_cleanup_then_exit_witness :
    destroy (some "clip.mp4") = [Event.cleanTemp "clip.mp4", Event.exitProcess] ∧
    (destroy (some "clip.mp4")).getLast? = some Event.exitProcess :=
  ⟨(interrupt_cleanup_then_exit (some "clip.mp4")).1 "clip.mp4" rfl,
   (interrupt_cleanup_then_exit (some "clip.mp4")).2⟩

/-! ## Claim C10 -/

/-- C10: for every command-line argument vector, the parsed `keep_fps`
setting is `true` (the `--keep-fps` flag is `store_true` with default
`True`, core.py line 35, so no argv can make it false); consequently
`start` never makes the fps-less extraction or reassembly calls (the
fixed 30-FPS fallback branches, lines 165-167 and 184-187, are
unreachable) and on the video path extraction is always called with the
detected source frame rate. -/
theorem keep_fps_always_true_no_fallback (argv : List String) (g : Globals) (env : Env)
    (hg : g.keep_fps = parse_keep_fps argv) :
    parse_keep_fps argv = true ∧
    (∀ t, Event.extractFrames t none ∉ start g env) ∧
    (∀ t, Event.createVideo t none ∉ start g env) ∧
    (env.has_image_extension g.target_path = false →
     (∀ m ∈ env.modules, m.pre_start_result = true) →
     Event.extractFrames g.target_path (some (env.detect_fps g.target_path)) ∈
       start g env) := by
  have hk : parse_keep_fps argv = true := by
    unfold parse_keep_fps store_true
    cases argv.contains "--keep-fps" <;> rfl
  have hgk : g.keep_fps = true := by rw [hg, hk]
  refine ⟨hk, ?_, ?_, ?_⟩
  · intro t h
    rcases mem_start_kinds h with ⟨s, hs⟩ | ⟨s, m, hs⟩ | hs | hs | hs | ⟨n, hs⟩ |
      ⟨n, fr, hs⟩ | ⟨n, hs⟩ | hs | hs | hs | hs <;> simp [hgk] at hs
  · intro t h
    rcases mem_start_kinds h with ⟨s, hs⟩ | ⟨s, m, hs⟩ | hs | hs | hs | ⟨n, hs⟩ |
      ⟨n, fr, hs⟩ | ⟨n, hs⟩ | hs | hs | hs | hs <;> simp [hgk] at hs
  · intro himg hps
    have hall : env.modules.all (fun m => m.pre_start_result) = true :=
      List.all_eq_true.2 hps
    unfold start
    rw [preStartPhase_snd, hall, himg]
    simp [extractSegment, hgk]

/-- Witness for C10 at a concrete argv that does not pass `--keep-fps`
and the concrete no-frame video job (extraction still runs with the
detected 24 FPS). -/
theorem keep_fps_always_true_no_fallback_witness :
    parse_keep_fps ["--skip-audio"] = true ∧
    Event.extractFrames "clip.mp4" none ∉ start gVideo envVideoNoFrames ∧
    Event.createVideo "clip.mp4" none ∉ start gVideo envVideoNoFrames ∧
    Event.extractFrames "clip.mp4" (some 24) ∈ start gVideo envVideoNoFrames :=
  ⟨(keep_fps_always_true_no_fallback ["--skip-audio"] gVideo envVideoNoFrames rfl).1,
   (keep_fps_always_true_no_fallback ["--skip-audio"] gVideo envVideoNoFrames rfl).2.1
     "clip.mp4",
   (keep_fps_always_true_no_fallback ["--skip-audio"] gVideo envVideoNoFrames rfl).2.2.1
     "clip.mp4",
   (keep_fps_always_true_no_fallback ["--skip-audio"] gVideo envVideoNoFrames rfl).2.2.2
     (by decide) (by decide)⟩

end Roop
